import Mathlib

/-!
Verification of the `hiera-py` client (`src/hiera/client.py`) against its
specification.  The Python code is shallow-embedded: child-process execution
and filesystem queries are abstracted as oracles in a `World` structure, and
each method of `HieraClient` is translated line by line.  Methods are
written in state-passing style (returning the possibly-updated client object
alongside the result) so that frame properties about the client's attributes
are expressible.
-/

namespace HieraPy

/-- A Python value as produced by `json.loads` (plus plain strings, which is
what `subprocess.check_output` yields before any conversion). -/
inductive Value where
  | str : String → Value
  | num : Int → Value
  | bool : Bool → Value
  | null : Value
  | list : List Value → Value
  | dict : List (String × Value) → Value

/-- Python truthiness (`bool(v)`) for the values above: empty strings,
zero, `False`, `None` and empty collections are falsy. -/
def Value.truthy : Value → Bool
  | Value.str s => !(s == "")
  | Value.num n => !(n == 0)
  | Value.bool b => b
  | Value.null => false
  | Value.list l => !l.isEmpty
  | Value.dict d => !d.isEmpty

/-- Result of `subprocess.check_output(cmd, env=os.environ, stderr=subprocess.STDOUT)`
for one concrete argument vector: the process may fail to launch (`OSError`),
run and exit non-zero (`subprocess.CalledProcessError`, carrying the exit code
and the captured combined stdout/stderr), or exit 0 with captured output. -/
inductive ProcResult where
  | osError : ProcResult
  | exitError : Int → String → ProcResult
  | ok : String → ProcResult
deriving DecidableEq

/-- Python exceptions that can escape the embedded code.

Modelled from the spec: the exception classes live in `hiera/exc.py`, which is
not among the sources; per the spec's error-handling design the three kinds
(`ConfigurationError`/`LookupError`, both realised by `hiera.exc.HieraError`
in the code, and `BinaryNotFoundError`, realised by
`hiera.exc.HieraNotFoundError`) are distinct, and `HieraNotFoundError` is not
a subclass of `HieraError`, so an `except HieraError` clause does not catch
it.  `keyError`, `valueError` and `unboundLocalError` model the builtin
Python exceptions `KeyError` (failed dict subscript), `ValueError`
(`json.loads` failure) and `UnboundLocalError` (read of an unassigned local),
none of which is one of the named hiera error kinds. -/
inductive PyError where
  | hieraError : String → PyError
  | hieraNotFoundError : String → PyError
  | keyError : PyError
  | valueError : PyError
  | unboundLocalError : PyError
deriving DecidableEq

/-- A raw exception escaping a `subprocess.check_output` / `json.loads`
pipeline before `_hiera`'s `except` clauses classify it: `OSError`,
`subprocess.CalledProcessError` (exit code, captured output) or `ValueError`. -/
inductive LowError where
  | osError : LowError
  | calledProcessError : Int → String → LowError
  | valueError : LowError
deriving DecidableEq

/-- The ambient world the client runs in: `run` is
`subprocess.check_output` on an argument vector, `jsonLoads` is `json.loads`
(`Option.none` models a raised `ValueError`), and `isfile` is
`os.path.isfile`. -/
structure World where
  run : List String → ProcResult
  jsonLoads : String → Option Value
  isfile : String → Bool

/-- The lookup-type argument of `get`/`_command`/`_hiera`.  In Python it can
be any object; the code distinguishes `None`, the class object `list`, the
class object `dict`, and everything else (`other` stands for an arbitrary
hashable object outside that set, all of which the code treats alike). -/
inductive Hint where
  | none : Hint
  | list : Hint
  | dict : Hint
  | other : Hint
deriving DecidableEq

/-- The `HieraClient` object: attributes assigned by `__init__`. -/
structure HieraClient where
  config_filename : String
  hiera_binary : String
  environment : List (String × String)
deriving DecidableEq

/-- `'='.join(env_var)` for one scope-variable pair, as used by `_command`. -/
def envToken (p : String × String) : String := p.1 ++ "=" ++ p.2

/-- Python `str.strip()`: drop whitespace from both ends. -/
def pyStrip (s : String) : String :=
  String.mk (((s.data.dropWhile Char.isWhitespace).reverse.dropWhile
    Char.isWhitespace).reverse)

/-- `string.replace('\n', '')` from `_to_dict_or_list`: remove every newline. -/
def stripNewlines (s : String) : String :=
  String.mk (s.data.filter (fun ch => !(ch == '\n')))

/-- The text `'require "json"; puts JSON.generate(%s)' % string` of the inline
program handed to the secondary interpreter by `_to_dict_or_list`. -/
def rubyJsonProgram (string : String) : String :=
  "require \"json\"; puts JSON.generate(" ++ string ++ ")"

/-- The strip applied in `_hiera`'s `else` branch:
`if isinstance(output, basestring): output = output.strip()`. -/
def pyStripIfStr : Value → Value
  | Value.str s => Value.str (pyStrip s)
  | v => v

/-- `HieraClient._command`, state-passing (the returned client is `self`
after the call).  Mirrors the source: compute `lookup_cmd` (`None`, or
`"--%s" % {list: 'array', dict: 'hash'}[lookup_type]`, which raises
`KeyError` for any other non-`None` argument), build
`[binary, '--config', config, key]`, `insert(1, lookup_cmd)` when a hint was
given, then extend with one `key=value` token per scope variable. -/
def HieraClient.commandS (c : HieraClient) (key_name : String)
    (lookup_type : Hint) : Except PyError (List String) × HieraClient :=
  let lookup_cmd : Except PyError (Option String) :=
    match lookup_type with
    | Hint.none => Except.ok Option.none
    | Hint.list => Except.ok (Option.some "--array")
    | Hint.dict => Except.ok (Option.some "--hash")
    | Hint.other => Except.error PyError.keyError
  match lookup_cmd with
  | Except.error e => (Except.error e, c)
  | Except.ok lc =>
    let cmd := [c.hiera_binary, "--config", c.config_filename, key_name]
    let cmd :=
      match lc with
      | Option.some f => List.insertIdx 1 f cmd
      | Option.none => cmd
    (Except.ok (cmd ++ c.environment.map envToken), c)

/-- `HieraClient._to_dict_or_list`, state-passing: strip newlines, run
`['ruby', '-e', 'require "json"; puts JSON.generate(%s)' % string]` through
`subprocess.check_output`, then `json.loads` the result.  Nothing is caught
here; raw exceptions (`LowError`) propagate to the caller. -/
def HieraClient.to_dict_or_listS (w : World) (c : HieraClient)
    (string : String) : Except LowError Value × HieraClient :=
  let string := stripNewlines string
  let to_json_cmd := ["ruby", "-e", rubyJsonProgram string]
  match w.run to_json_cmd with
  | ProcResult.osError => (Except.error LowError.osError, c)
  | ProcResult.exitError rc out =>
    (Except.error (LowError.calledProcessError rc out), c)
  | ProcResult.ok json_output =>
    match w.jsonLoads json_output with
    | Option.some v => (Except.ok v, c)
    | Option.none => (Except.error LowError.valueError, c)

/-- The `try` block of `HieraClient._hiera`: run the lookup command through
`subprocess.check_output`; when a type hint was given (`lookup_type is not
None`), additionally pass the captured output through `_to_dict_or_list`.
Raw exceptions (`LowError`) escape to `_hiera`'s `except` clauses. -/
def HieraClient.hieraTryS (w : World) (c1 : HieraClient)
    (hiera_command : List String) (lookup_type : Hint) :
    Except LowError Value × HieraClient :=
  match w.run hiera_command with
  | ProcResult.osError => (Except.error LowError.osError, c1)
  | ProcResult.exitError rc out =>
    (Except.error (LowError.calledProcessError rc out), c1)
  | ProcResult.ok output =>
    match lookup_type with
    | Hint.none => (Except.ok (Value.str output), c1)
    | _ => HieraClient.to_dict_or_listS w c1 output

/-- `HieraClient._hiera`, state-passing.  Builds the command (a `KeyError`
from `_command` propagates unclassified), then runs the `try` block
(`hieraTryS`).  `except OSError` → `HieraNotFoundError` (message naming
`self.hiera_binary`), `except subprocess.CalledProcessError` → `HieraError`;
a `ValueError` from `json.loads` matches neither clause and propagates.  In
the `else` branch, string output is stripped and a falsy result becomes
`None`. -/
def HieraClient.hieraS (w : World) (c : HieraClient) (key_name : String)
    (lookup_type : Hint) : Except PyError (Option Value) × HieraClient :=
  match HieraClient.commandS c key_name lookup_type with
  | (Except.error e, c1) => (Except.error e, c1)
  | (Except.ok hiera_command, c1) =>
    match HieraClient.hieraTryS w c1 hiera_command lookup_type with
    | (Except.error LowError.osError, c2) =>
      (Except.error (PyError.hieraNotFoundError
        ("Could not find hiera binary at: " ++ c2.hiera_binary)), c2)
    | (Except.error (LowError.calledProcessError rc out), c2) =>
      (Except.error (PyError.hieraError
        ("Failed to retrieve key " ++ key_name ++ ". exit code: " ++
          toString rc ++ " message:  console output: " ++ out)), c2)
    | (Except.error LowError.valueError, c2) =>
      (Except.error PyError.valueError, c2)
    | (Except.ok output, c2) =>
      let output := pyStripIfStr output
      if output.truthy then (Except.ok (Option.some output), c2)
      else (Except.ok Option.none, c2)

/-- `HieraClient.get`, state-passing.  Calls `_hiera`; an
`hiera.exc.HieraError` is caught and replaced by a type-appropriate default
(`''` / `dict()` / `[]`); with any other `lookup_type` the handler would fall
through all branches leaving `value` unassigned (`UnboundLocalError`).  Every
other exception propagates. -/
def HieraClient.getS (w : World) (c : HieraClient) (key_name : String)
    (lookup_type : Hint) : Except PyError (Option Value) × HieraClient :=
  match HieraClient.hieraS w c key_name lookup_type with
  | (Except.error (PyError.hieraError _), c1) =>
    match lookup_type with
    | Hint.none => (Except.ok (Option.some (Value.str "")), c1)
    | Hint.dict => (Except.ok (Option.some (Value.dict [])), c1)
    | Hint.list => (Except.ok (Option.some (Value.list [])), c1)
    | Hint.other => (Except.error PyError.unboundLocalError, c1)
  | r => r

/-- Pure view of `_command` (the value component of `commandS`). -/
def HieraClient.command (c : HieraClient) (key_name : String)
    (lookup_type : Hint) : Except PyError (List String) :=
  (HieraClient.commandS c key_name lookup_type).1

/-- Pure view of `_to_dict_or_list`. -/
def HieraClient.to_dict_or_list (w : World) (c : HieraClient)
    (string : String) : Except LowError Value :=
  (HieraClient.to_dict_or_listS w c string).1

/-- Pure view of `_hiera`. -/
def HieraClient.hiera (w : World) (c : HieraClient) (key_name : String)
    (lookup_type : Hint) : Except PyError (Option Value) :=
  (HieraClient.hieraS w c key_name lookup_type).1

/-- Pure view of `get`. -/
def HieraClient.get (w : World) (c : HieraClient) (key_name : String)
    (lookup_type : Hint) : Except PyError (Option Value) :=
  (HieraClient.getS w c key_name lookup_type).1

/-- `HieraClient._validate`: raise `HieraError` unless
`os.path.isfile(self.config_filename)`. -/
def HieraClient.validate (w : World) (c : HieraClient) : Except PyError Unit :=
  if w.isfile c.config_filename then Except.ok ()
  else Except.error (PyError.hieraError
    ("Hiera configuration file does not exist at: " ++ c.config_filename))

/-- `HieraClient.__init__`: assign `config_filename`, `hiera_binary`
(default `'hiera'`) and `environment` (the keyword arguments), then
`self._validate()`.  Returns the constructed object, or the exception
`_validate` raised. -/
def HieraClient.init (w : World) (config_filename : String)
    (hiera_binary : String := "hiera")
    (environment : List (String × String) := []) : Except PyError HieraClient :=
  let c : HieraClient := ⟨config_filename, hiera_binary, environment⟩
  match HieraClient.validate w c with
  | Except.ok _ => Except.ok c
  | Except.error e => Except.error e

/-! Concrete clients and worlds used to exercise the embedding.  The worlds
tell the lookup binary's invocation apart from the conversion interpreter's
by the head of the argument vector (the conversion command always starts
with `"ruby"`, the client's commands with its `hiera_binary`). -/

/-- A client as built by
`HieraClient('/etc/hiera.yaml', environment='dev')`. -/
def sampleClient : HieraClient :=
  ⟨"/etc/hiera.yaml", "hiera", [("env", "dev")]⟩

/-- The lookup binary exits 0 printing only a newline; the conversion
interpreter exits non-zero (as `ruby -e 'require "json"; puts
JSON.generate()'` does on the resulting empty literal). -/
def worldEmptyRubyFails : World where
  run := fun cmd =>
    if cmd.headD "" = "ruby" then ProcResult.exitError 1 "ArgumentError"
    else ProcResult.ok "\n"
  jsonLoads := fun _ => Option.none
  isfile := fun _ => true

/-- The lookup binary exits 0 printing only a newline; the conversion
interpreter nevertheless exits 0 printing a JSON array, which decodes to
`["a"]`. -/
def worldEmptyRubyList : World where
  run := fun cmd =>
    if cmd.headD "" = "ruby" then ProcResult.ok "[\"a\"]"
    else ProcResult.ok "\n"
  jsonLoads := fun s =>
    if s = "[\"a\"]" then Option.some (Value.list [Value.str "a"])
    else Option.none
  isfile := fun _ => true

/-- The lookup binary prints an empty array literal; the conversion step
succeeds and decodes it to the empty list. -/
def worldDecodedEmptyList : World where
  run := fun cmd =>
    if cmd.headD "" = "ruby" then ProcResult.ok "[]"
    else ProcResult.ok "[]\n"
  jsonLoads := fun s =>
    if s = "[]" then Option.some (Value.list []) else Option.none
  isfile := fun _ => true

/-- Every child process runs but exits non-zero (e.g. key not found). -/
def worldExitNonzero : World where
  run := fun _ => ProcResult.exitError 1 "key not found"
  jsonLoads := fun _ => Option.none
  isfile := fun _ => true

/-- No child process can be launched (`OSError` on every invocation). -/
def worldLaunchFail : World where
  run := fun _ => ProcResult.osError
  jsonLoads := fun _ => Option.none
  isfile := fun _ => true

/-- The lookup binary prints text that is not a valid literal; the
conversion interpreter exits non-zero on it (bad syntax). -/
def worldRubyBadLiteral : World where
  run := fun cmd =>
    if cmd.headD "" = "ruby" then ProcResult.exitError 1 "syntax error"
    else ProcResult.ok "nil]\n"
  jsonLoads := fun _ => Option.none
  isfile := fun _ => true

/-- The conversion interpreter itself cannot be launched, while the lookup
binary runs fine. -/
def worldRubyMissing : World where
  run := fun cmd =>
    if cmd.headD "" = "ruby" then ProcResult.osError
    else ProcResult.ok "[1]\n"
  jsonLoads := fun _ => Option.none
  isfile := fun _ => true

/-- The conversion interpreter prints something `json.loads` rejects. -/
def worldRubyBadJson : World where
  run := fun cmd =>
    if cmd.headD "" = "ruby" then ProcResult.ok "not json"
    else ProcResult.ok "[1]\n"
  jsonLoads := fun _ => Option.none
  isfile := fun _ => true

/-- The lookup binary exits 0 printing a padded scalar value. -/
def worldOkValue : World where
  run := fun _ => ProcResult.ok "  value\n"
  jsonLoads := fun _ => Option.none
  isfile := fun _ => true

/-- A filesystem on which exactly `/etc/hiera.yaml` is a regular file. -/
def worldConfigOnly : World where
  run := fun _ => ProcResult.ok ""
  jsonLoads := fun _ => Option.none
  isfile := fun p => p = "/etc/hiera.yaml"

/-! Helper lemmas about the embedding. -/

lemma insertIdx_one (a x : String) (l : List String) :
    List.insertIdx 1 a (x :: l) = x :: a :: l := rfl

lemma command_none_eq (c : HieraClient) (k : String) :
    HieraClient.command c k Hint.none =
      Except.ok ([c.hiera_binary, "--config", c.config_filename, k] ++
        c.environment.map envToken) := rfl

lemma command_list_eq (c : HieraClient) (k : String) :
    HieraClient.command c k Hint.list =
      Except.ok ([c.hiera_binary, "--array", "--config", c.config_filename, k]
        ++ c.environment.map envToken) := rfl

lemma command_dict_eq (c : HieraClient) (k : String) :
    HieraClient.command c k Hint.dict =
      Except.ok ([c.hiera_binary, "--hash", "--config", c.config_filename, k]
        ++ c.environment.map envToken) := rfl

lemma commandS_snd (c : HieraClient) (k : String) (t : Hint) :
    (HieraClient.commandS c k t).2 = c := by
  cases t <;> rfl

lemma commandS_eta (c : HieraClient) (k : String) (t : Hint) :
    HieraClient.commandS c k t = (HieraClient.command c k t, c) :=
  Prod.ext rfl (commandS_snd c k t)

lemma to_dict_or_listS_snd (w : World) (c : HieraClient) (s : String) :
    (HieraClient.to_dict_or_listS w c s).2 = c := by
  simp only [HieraClient.to_dict_or_listS]
  split
  · rfl
  · rfl
  · split <;> rfl

lemma to_dict_or_listS_eta (w : World) (c : HieraClient) (s : String) :
    HieraClient.to_dict_or_listS w c s =
      (HieraClient.to_dict_or_list w c s, c) :=
  Prod.ext rfl (to_dict_or_listS_snd w c s)

lemma hieraTryS_snd (w : World) (c : HieraClient) (cmd : List String)
    (t : Hint) : (HieraClient.hieraTryS w c cmd t).2 = c := by
  simp only [HieraClient.hieraTryS]
  split
  · rfl
  · rfl
  · split
    · rfl
    all_goals exact to_dict_or_listS_snd w c _

lemma hieraS_snd (w : World) (c : HieraClient) (k : String) (t : Hint) :
    (HieraClient.hieraS w c k t).2 = c := by
  simp only [HieraClient.hieraS]
  split
  · case _ e c1 heq =>
      have h := commandS_snd c k t
      rw [heq] at h
      exact h
  · case _ cmd c1 heq =>
      have h1 : c1 = c := by
        have h := commandS_snd c k t
        rw [heq] at h
        exact h
      subst h1
      split
      case _ c2 heq2 =>
        have h := hieraTryS_snd w c1 cmd t
        rw [heq2] at h
        exact h
      case _ rc out c2 heq2 =>
        have h := hieraTryS_snd w c1 cmd t
        rw [heq2] at h
        exact h
      case _ c2 heq2 =>
        have h := hieraTryS_snd w c1 cmd t
        rw [heq2] at h
        exact h
      case _ v c2 heq2 =>
        have h := hieraTryS_snd w c1 cmd t
        rw [heq2] at h
        split <;> exact h

/-! Claim theorems. -/

/-- C1 (counterexample): for a typed lookup whose binary exits 0 with
output that is empty after trimming, `get` does NOT return absent and the
conversion step IS invoked.  In `worldEmptyRubyFails` the lookup binary
prints only a newline and the conversion process fails, and `get` returns
the empty-list default (not absent); `worldEmptyRubyList` differs from it
only in the behaviour of the conversion process (and of `json.loads` on its
output), yet `get` returns a different value — so the conversion step's
result is observed even though the raw output was empty after trimming. -/
theorem C1_counterexample :
    HieraClient.get worldEmptyRubyFails sampleClient "k" Hint.list =
      Except.ok (Option.some (Value.list [])) ∧
    HieraClient.get worldEmptyRubyFails sampleClient "k" Hint.list ≠
      Except.ok Option.none ∧
    HieraClient.get worldEmptyRubyList sampleClient "k" Hint.list =
      Except.ok (Option.some (Value.list [Value.str "a"])) := by
  refine ⟨rfl, ?_, rfl⟩
  intro h
  have h2 : Except.ok (Option.some (Value.list [])) =
      (Except.ok Option.none : Except PyError (Option Value)) := h
  exact Option.noConfusion (Except.ok.inj h2)

/-- C1 (amended): for a typed lookup (`list` or `mapping` hint) whose
binary exits 0 with output empty after trimming, the conversion step is
invoked on the raw output anyway; when the conversion process exits
non-zero (which is what an empty literal produces under
`ruby -e 'require "json"; puts JSON.generate()'`), the resulting
`LookupError` is swallowed by `get`, which returns the type-appropriate
empty default — not absent. -/
theorem C1_typed_empty_conversion_runs (w : World) (c : HieraClient)
    (k out : String) (rc : Int) (e : String) (t : Hint) (flag : String)
    (d : Value)
    (hflag : (t = Hint.list ∧ flag = "--array" ∧ d = Value.list []) ∨
      (t = Hint.dict ∧ flag = "--hash" ∧ d = Value.dict []))
    (hrun : w.run ([c.hiera_binary, flag, "--config", c.config_filename, k]
      ++ c.environment.map envToken) = ProcResult.ok out)
    (hempty : pyStrip out = "")
    (hruby : w.run ["ruby", "-e", rubyJsonProgram (stripNewlines out)] =
      ProcResult.exitError rc e) :
    HieraClient.get w c k t = Except.ok (Option.some d) := by
  rcases hflag with ⟨rfl, rfl, rfl⟩ | ⟨rfl, rfl, rfl⟩ <;>
  · simp only [HieraClient.get, HieraClient.getS, HieraClient.hieraS,
      commandS_eta, command_list_eq, command_dict_eq, hrun,
      HieraClient.hieraTryS, HieraClient.to_dict_or_listS, hruby]

/-- C1 (witness): the amended theorem at a concrete input. -/
theorem C1_witness :
    HieraClient.get worldEmptyRubyFails sampleClient "k2" Hint.list =
      Except.ok (Option.some (Value.list [])) :=
  C1_typed_empty_conversion_runs worldEmptyRubyFails sampleClient "k2" "\n"
    1 "ArgumentError" Hint.list "--array" (Value.list [])
    (Or.inl ⟨rfl, rfl, rfl⟩) rfl rfl rfl

/-- C2 (counterexample): a typed lookup whose conversion step succeeds with
a falsy decoded value (here the empty list) does NOT return that empty
collection: `get` normalizes it to absent (`None`), because `_hiera`'s
`if not output: return None` runs after the conversion. -/
theorem C2_counterexample :
    HieraClient.get worldDecodedEmptyList sampleClient "k" Hint.list =
      Except.ok Option.none ∧
    HieraClient.get worldDecodedEmptyList sampleClient "k" Hint.list ≠
      Except.ok (Option.some (Value.list [])) := by
  refine ⟨rfl, ?_⟩
  intro h
  have h2 : (Except.ok Option.none : Except PyError (Option Value)) =
      Except.ok (Option.some (Value.list [])) := h
  exact Option.noConfusion (Except.ok.inj h2)

/-- C2 (amended): for a typed lookup whose conversion step succeeds with
decoded value `v`, `get` returns `v` (string-stripped when `v` is a string)
if it is truthy, and absent otherwise: the empty-to-absent normalization
applies to every lookup, typed ones included, so a falsy decoded value is
never returned as-is. -/
theorem C2_typed_falsy_normalized (w : World) (c : HieraClient)
    (k out : String) (t : Hint) (flag : String) (v : Value)
    (hflag : (t = Hint.list ∧ flag = "--array") ∨
      (t = Hint.dict ∧ flag = "--hash"))
    (hrun : w.run ([c.hiera_binary, flag, "--config", c.config_filename, k]
      ++ c.environment.map envToken) = ProcResult.ok out)
    (hconv : HieraClient.to_dict_or_list w c out = Except.ok v) :
    HieraClient.get w c k t =
      Except.ok (if (pyStripIfStr v).truthy then Option.some (pyStripIfStr v)
        else Option.none) := by
  rcases hflag with ⟨rfl, rfl⟩ | ⟨rfl, rfl⟩ <;>
  · simp only [HieraClient.get, HieraClient.getS, HieraClient.hieraS,
      commandS_eta, command_list_eq, command_dict_eq, hrun,
      HieraClient.hieraTryS, to_dict_or_listS_eta, hconv]
    by_cases hb : (pyStripIfStr v).truthy <;> simp [hb]

/-- C2 (witness): the amended theorem at a concrete input where the decoded
value is the empty list; the result is absent. -/
theorem C2_witness :
    HieraClient.get worldDecodedEmptyList sampleClient "k2" Hint.list =
      Except.ok Option.none := by
  have h := C2_typed_falsy_normalized worldDecodedEmptyList sampleClient "k2"
    "[]\n" Hint.list "--array" (Value.list []) (Or.inl ⟨rfl, rfl⟩) rfl rfl
  rw [h]
  rfl

/-- C3 (confirmed): when the lookup binary runs and exits non-zero, `get`
swallows the resulting `HieraError` and returns the type-appropriate empty
default: empty string for no hint, empty list for the `list` hint, empty
mapping for the `dict` hint. -/
theorem C3_lookup_error_swallowed (w : World) (c : HieraClient) (k : String)
    (t : Hint) (cmdv : List String) (rc : Int) (out : String)
    (hcmd : HieraClient.command c k t = Except.ok cmdv)
    (hrun : w.run cmdv = ProcResult.exitError rc out) :
    (t = Hint.none →
      HieraClient.get w c k t = Except.ok (Option.some (Value.str ""))) ∧
    (t = Hint.list →
      HieraClient.get w c k t = Except.ok (Option.some (Value.list []))) ∧
    (t = Hint.dict →
      HieraClient.get w c k t = Except.ok (Option.some (Value.dict []))) := by
  refine ⟨?_, ?_, ?_⟩ <;> rintro rfl <;>
  · simp only [HieraClient.get, HieraClient.getS, HieraClient.hieraS,
      commandS_eta, hcmd, HieraClient.hieraTryS, hrun]

/-- C3 (witness): a `list`-typed lookup against a binary that exits
non-zero returns the empty list, not an error. -/
theorem C3_witness :
    HieraClient.get worldExitNonzero sampleClient "k" Hint.list =
      Except.ok (Option.some (Value.list [])) :=
  (C3_lookup_error_swallowed worldExitNonzero sampleClient "k" Hint.list
    ["hiera", "--array", "--config", "/etc/hiera.yaml", "k", "env=dev"]
    1 "key not found" rfl rfl).2.1 rfl

/-- C4 (confirmed): when the lookup binary cannot be launched, `get`
propagates `HieraNotFoundError` (the spec's `BinaryNotFoundError`) carrying
the attempted binary path; it is not swallowed into a default the way
`HieraError` is. -/
theorem C4_binary_not_found_propagates (w : World) (c : HieraClient)
    (k : String) (t : Hint) (cmdv : List String)
    (hcmd : HieraClient.command c k t = Except.ok cmdv)
    (hrun : w.run cmdv = ProcResult.osError) :
    HieraClient.get w c k t =
      Except.error (PyError.hieraNotFoundError
        ("Could not find hiera binary at: " ++ c.hiera_binary)) := by
  cases t
  case other => simp [HieraClient.command, HieraClient.commandS] at hcmd
  all_goals
    simp only [HieraClient.get, HieraClient.getS, HieraClient.hieraS,
      commandS_eta, hcmd, HieraClient.hieraTryS, hrun]

/-- C4 (witness): the theorem at a concrete input. -/
theorem C4_witness :
    HieraClient.get worldLaunchFail sampleClient "k" Hint.list =
      Except.error (PyError.hieraNotFoundError
        ("Could not find hiera binary at: " ++ "hiera")) :=
  C4_binary_not_found_propagates worldLaunchFail sampleClient "k" Hint.list
    ["hiera", "--array", "--config", "/etc/hiera.yaml", "k", "env=dev"]
    rfl rfl

/-- C5 (counterexample): a conversion-step failure (the interpreter exits
non-zero on a bad literal) does NOT propagate as an uncaught low-level
failure: `_to_dict_or_list` runs inside `_hiera`'s `try` block, so the
`CalledProcessError` is classified as `HieraError` and swallowed by `get`,
which returns the empty default (an `ok` result, no error at all). -/
theorem C5_counterexample :
    HieraClient.get worldRubyBadLiteral sampleClient "k" Hint.list =
      Except.ok (Option.some (Value.list [])) ∧
    (HieraClient.get worldRubyBadLiteral sampleClient "k" Hint.list).isOk =
      true :=
  ⟨rfl, rfl⟩

/-- C5 (amended): failures of the conversion step are handled by the same
`except` clauses as the lookup binary's: a non-zero exit becomes
`HieraError` and is swallowed by `get` into the empty default; a launch
failure becomes `HieraNotFoundError` (whose message still names the hiera
binary, not the interpreter); only a `json.loads` failure on the
interpreter's output propagates as an uncaught `ValueError`. -/
theorem C5_conversion_errors_classified (w : World) (c : HieraClient)
    (k out : String) (rc : Int) (e j : String) (t : Hint) (flag : String)
    (d : Value)
    (hflag : (t = Hint.list ∧ flag = "--array" ∧ d = Value.list []) ∨
      (t = Hint.dict ∧ flag = "--hash" ∧ d = Value.dict []))
    (hrun : w.run ([c.hiera_binary, flag, "--config", c.config_filename, k]
      ++ c.environment.map envToken) = ProcResult.ok out) :
    (w.run ["ruby", "-e", rubyJsonProgram (stripNewlines out)] =
        ProcResult.exitError rc e →
      HieraClient.get w c k t = Except.ok (Option.some d)) ∧
    (w.run ["ruby", "-e", rubyJsonProgram (stripNewlines out)] =
        ProcResult.osError →
      HieraClient.get w c k t =
        Except.error (PyError.hieraNotFoundError
          ("Could not find hiera binary at: " ++ c.hiera_binary))) ∧
    (w.run ["ruby", "-e", rubyJsonProgram (stripNewlines out)] =
        ProcResult.ok j →
      w.jsonLoads j = Option.none →
      HieraClient.get w c k t = Except.error PyError.valueError) := by
  rcases hflag with ⟨rfl, rfl, rfl⟩ | ⟨rfl, rfl, rfl⟩ <;>
  · refine ⟨?_, ?_, ?_⟩
    · intro hruby
      simp only [HieraClient.get, HieraClient.getS, HieraClient.hieraS,
        commandS_eta, command_list_eq, command_dict_eq, hrun,
        HieraClient.hieraTryS, HieraClient.to_dict_or_listS, hruby]
    · intro hruby
      simp only [HieraClient.get, HieraClient.getS, HieraClient.hieraS,
        commandS_eta, command_list_eq, command_dict_eq, hrun,
        HieraClient.hieraTryS, HieraClient.to_dict_or_listS, hruby]
    · intro hruby hjson
      simp only [HieraClient.get, HieraClient.getS, HieraClient.hieraS,
        commandS_eta, command_list_eq, command_dict_eq, hrun,
        HieraClient.hieraTryS, HieraClient.to_dict_or_listS, hruby, hjson]

/-- C5 (witness): the amended theorem at a concrete input under the
mapping hint: the lookup binary prints a bad literal, the conversion
interpreter exits non-zero on it, and `get` swallows the resulting
`HieraError` into the empty mapping. -/
theorem C5_witness :
    HieraClient.get worldRubyBadLiteral sampleClient "k3" Hint.dict =
      Except.ok (Option.some (Value.dict [])) :=
  (C5_conversion_errors_classified worldRubyBadLiteral sampleClient "k3"
    "nil]\n" 1 "syntax error" "" Hint.dict "--hash" (Value.dict [])
    (Or.inr ⟨rfl, rfl, rfl⟩) rfl).1 rfl

/-- C6 (confirmed): construction fails with the configuration error exactly
when `os.path.isfile` rejects the configuration path, and succeeds —
returning the client with the given attributes, whatever the scope
variables — exactly when it accepts it.  No other validation happens. -/
theorem C6_construction_validation (w : World) (cfg bin : String)
    (env : List (String × String)) :
    (HieraClient.init w cfg bin env =
        Except.error (PyError.hieraError
          ("Hiera configuration file does not exist at: " ++ cfg)) ↔
      w.isfile cfg = false) ∧
    (HieraClient.init w cfg bin env = Except.ok ⟨cfg, bin, env⟩ ↔
      w.isfile cfg = true) := by
  simp only [HieraClient.init, HieraClient.validate]
  cases h : w.isfile cfg <;> simp [h]

/-- C6 (witness): the theorem at concrete inputs, one non-existent path and
one existing one. -/
theorem C6_witness :
    HieraClient.init worldConfigOnly "/none.yaml" "hiera" [] =
      Except.error (PyError.hieraError
        ("Hiera configuration file does not exist at: " ++ "/none.yaml")) ∧
    HieraClient.init worldConfigOnly "/etc/hiera.yaml" "hiera" [] =
      Except.ok ⟨"/etc/hiera.yaml", "hiera", []⟩ :=
  ⟨(C6_construction_validation worldConfigOnly "/none.yaml" "hiera" []).1.mpr
      (by decide),
   (C6_construction_validation worldConfigOnly "/etc/hiera.yaml" "hiera"
      []).2.mpr (by decide)⟩

/-- C7 (confirmed): command construction is pure (its type consumes no
`World`), the type-hint flag is inserted immediately after the binary path
and before `--config`, one `key=value` token per scope variable is appended
at the end, and on the sample client `get("k", list)` builds exactly
`[binary, "--array", "--config", config_path, "k", "env=dev"]`. -/
theorem C7_command_construction (c : HieraClient) (k : String) :
    HieraClient.command c k Hint.list =
      Except.ok ([c.hiera_binary, "--array", "--config", c.config_filename, k]
        ++ c.environment.map envToken) ∧
    HieraClient.command c k Hint.dict =
      Except.ok ([c.hiera_binary, "--hash", "--config", c.config_filename, k]
        ++ c.environment.map envToken) ∧
    HieraClient.command c k Hint.none =
      Except.ok ([c.hiera_binary, "--config", c.config_filename, k] ++
        c.environment.map envToken) ∧
    HieraClient.command sampleClient "k" Hint.list =
      Except.ok ["hiera", "--array", "--config", "/etc/hiera.yaml", "k",
        "env=dev"] :=
  ⟨rfl, rfl, rfl, rfl⟩

/-- C8 (confirmed): an untyped lookup whose binary exits 0 returns the
trimmed output string, or absent when the output trims to empty. -/
theorem C8_untyped_trimmed (w : World) (c : HieraClient) (k : String)
    (cmdv : List String) (out : String)
    (hcmd : HieraClient.command c k Hint.none = Except.ok cmdv)
    (hrun : w.run cmdv = ProcResult.ok out) :
    HieraClient.get w c k Hint.none =
      Except.ok (if pyStrip out = "" then Option.none
        else Option.some (Value.str (pyStrip out))) := by
  simp only [HieraClient.get, HieraClient.getS, HieraClient.hieraS,
    commandS_eta, hcmd, HieraClient.hieraTryS, hrun, pyStripIfStr]
  by_cases h : pyStrip out = "" <;> simp [Value.truthy, h]

/-- C8 (witness): the binary prints `"  value\n"`; `get` returns
`"value"`. -/
theorem C8_witness :
    HieraClient.get worldOkValue sampleClient "k" Hint.none =
      Except.ok (Option.some (Value.str "value")) := by
  have h := C8_untyped_trimmed worldOkValue sampleClient "k"
    ["hiera", "--config", "/etc/hiera.yaml", "k", "env=dev"] "  value\n"
    rfl rfl
  rw [h]
  rfl

/-- C9 (confirmed): `get` never mutates the client.  In the state-passing
embedding — whose translation contains no attribute assignment, because the
source methods only read `self` — the client object returned alongside any
`get` outcome (success, swallowed `HieraError`, or propagated error) is the
one passed in, so `config_filename`, `hiera_binary` and `environment` are
all unchanged from construction. -/
theorem C9_get_never_mutates_client (w : World) (c : HieraClient)
    (k : String) (t : Hint) : (HieraClient.getS w c k t).2 = c := by
  simp only [HieraClient.getS]
  split
  · case _ m c1 heq =>
      have h1 : c1 = c := by
        have h := hieraS_snd w c k t
        rw [heq] at h
        exact h
      subst h1
      cases t <;> rfl
  · case _ r =>
      exact hieraS_snd w c k t

/-- C10 (confirmed): a `get` with a type hint outside `{None, list, dict}`
fails with the `KeyError` raised by `_command`'s dict subscript before any
child process is launched (the result does not depend on the `World` at
all, so neither external binary is consulted), and the error is none of the
named hiera error kinds — in particular `get`'s `except HieraError` clause
does not catch it. -/
theorem C10_invalid_hint (w : World) (c : HieraClient) (k : String) :
    HieraClient.get w c k Hint.other = Except.error PyError.keyError := rfl

end HieraPy
